import Mathlib

/-!
Verification of the open_data_romania scrapers.

Shallow embedding of the four Python source files:
  extract-deputies.py, extract-senators.py,
  parliament-scraper-selenium.py, senators-scraper.py.

Strings are modelled as `List Char`.  BeautifulSoup node trees are
modelled as the flat structures the code actually inspects (rows of
cells, cards with a first anchor and flattened text, paragraph child
streams, find_next node streams).  The standard-library `urljoin` is
an external collaborator and is passed as an opaque function
parameter `join`.  Python exceptions caught by the enclosing `try`
blocks are modelled with `Option` (outer `none` = an exception was
raised and caught).
-/

namespace OpenDataRomania

/-- Python `str.strip()` whitespace characters (ASCII subset that the
    inputs can contain). -/
def pyWS (c : Char) : Bool :=
  c == ' ' || c == '\t' || c == '\n' || c == '\r' || c == '\x0b' || c == '\x0c'

/-- Strip characters satisfying `f` from both ends, as Python `strip`. -/
def stripBoth (f : Char → Bool) (s : List Char) : List Char :=
  ((s.dropWhile f).reverse.dropWhile f).reverse

/-- Python `text.strip()`. -/
def pyStrip (s : List Char) : List Char := stripBoth pyWS s

/-- The character set of `element.strip(' -\n\r\t')` in
    `parse_deputy_committees`. -/
def roleStripSet (c : Char) : Bool :=
  c == ' ' || c == '-' || c == '\n' || c == '\r' || c == '\t'

/-- `text.strip(' -\n\r\t')` from `parse_deputy_committees`. -/
def stripRole (s : List Char) : List Char := stripBoth roleStripSet s

/-- Python `pat in line` substring test. -/
def containsSub (pat : List Char) : List Char → Bool
  | [] => pat.isEmpty
  | c :: rest => pat.isPrefixOf (c :: rest) || containsSub pat rest

/-- Python `line.replace(pat, "")`: delete every (leftmost,
    non-overlapping) occurrence of `pat`. -/
def removeAll (pat : List Char) : List Char → List Char
  | [] => []
  | c :: rest =>
    if h : pat ≠ [] ∧ pat.isPrefixOf (c :: rest) then
      removeAll pat ((c :: rest).drop pat.length)
    else
      c :: removeAll pat rest
termination_by s => s.length
decreasing_by
  · simp only [List.length_drop, List.length_cons]
    have hp : 1 ≤ pat.length := by
      cases pat with
      | nil => exact absurd rfl h.1
      | cons a l => simp
    omega
  · simp

/-- Python `text.replace(old, new)` for single characters. -/
def replaceChar (old new : Char) (s : List Char) : List Char :=
  s.map (fun c => if c = old then new else c)

/-- `fix_romanian_chars` on an actual string: the four sequential
    single-character `text.replace` calls, in dict order. -/
def fixRomanian (s : List Char) : List Char :=
  replaceChar 'ª' 'Ș' (replaceChar 'Þ' 'Ț' (replaceChar 'þ' 'ț' (replaceChar 'º' 'ș' s)))

/-- A Python value passed to `fix_romanian_chars`: either a `str` or
    something else (the `isinstance` guard returns it untouched). -/
inductive PyVal where
  | str (s : List Char)
  | nonStr
deriving DecidableEq

/-- `fix_romanian_chars(text)` from extract-senators.py /
    senators-scraper.py, including the `isinstance(text, str)` guard. -/
def fix_romanian_chars : PyVal → PyVal
  | PyVal.str s => PyVal.str (fixRomanian s)
  | PyVal.nonStr => PyVal.nonStr

/-- The pointwise character substitution realised by the four
    sequential replaces. -/
def fixCharPt (c : Char) : Char :=
  let c1 := if c = 'º' then 'ș' else c
  let c2 := if c1 = 'þ' then 'ț' else c1
  let c3 := if c2 = 'Þ' then 'Ț' else c2
  if c3 = 'ª' then 'Ș' else c3

/-- `re.search` for a pattern of the form `lit(cap+)`: try each start
    position left to right; at a position the pattern matches when the
    literal `pat` is a prefix there and at least one following
    character satisfies `cap`; the greedy capture is the maximal run
    of `cap` characters after the literal. -/
def searchLitCap (pat : List Char) (cap : Char → Bool) : List Char → Option (List Char)
  | [] => none
  | c :: rest =>
    if pat.isPrefixOf (c :: rest) && !(((c :: rest).drop pat.length).takeWhile cap).isEmpty then
      some (((c :: rest).drop pat.length).takeWhile cap)
    else
      searchLitCap pat cap rest

/-- `re.search(r'idm=(\d+)', s)`, returning the captured group. -/
def findIdm (s : List Char) : Option (List Char) :=
  searchLitCap ('i' :: 'd' :: 'm' :: '=' :: []) Char.isDigit s

/-- `re.search(r'ParlamentarID=([^&]+)', s)`, returning the captured
    group. -/
def findParlamentarID (s : List Char) : Option (List Char) :=
  searchLitCap ("ParlamentarID=".toList) (fun c => c != '&') s

/-- The fixed deputy profile-URL template
    `https://cdep.ro/pls/parlam/structura2015.mp?idm={deputy_id}`
    split as prefix-before-`idm=` for reasoning. -/
def deputyUrlStem : List Char := "https://cdep.ro/pls/parlam/structura2015.mp?".toList

/-- `f"https://cdep.ro/pls/parlam/structura2015.mp?idm={deputy_id}"`. -/
def deputyProfileUrl (id : List Char) : List Char :=
  deputyUrlStem ++ ('i' :: 'd' :: 'm' :: '=' :: []) ++ id

/-- The fixed senator profile-URL template with the default base URL,
    split as prefix-before-`ParlamentarID=`. -/
def senatorUrlStem : List Char := "https://www.senat.ro/FisaSenator.aspx?".toList

/-- `f"{self.base_url}/FisaSenator.aspx?ParlamentarID={senator_id}"`
    with the default `base_url`. -/
def senatorProfileUrl (id : List Char) : List Char :=
  senatorUrlStem ++ "ParlamentarID=".toList ++ id

/-! ## Lower-chamber (deputies) listing parse -/

/-- A `<a>` tag as the code reads it: its visible text and its
    (possibly absent) `href` attribute.  `link['href']` raises
    `KeyError` when the attribute is absent. -/
structure Anchor where
  text : List Char
  href : Option (List Char)
deriving DecidableEq

/-- A `<td>` cell of a listing row: its first contained anchor (what
    `cell.find('a')` returns, `none` when there is none) and its
    flattened text. -/
structure DCell where
  anchor : Option Anchor
  text : List Char
deriving DecidableEq

/-- The deputy Basic Record built by
    `ParliamentScraper.extract_deputies_from_file` (dict key order:
    name, url, id, group). -/
structure DeputyRec where
  name : List Char
  url : List Char
  id : List Char
  group : List Char
deriving DecidableEq

/-- Processing of one data row of the deputies table (the body of the
    row loop in `extract_deputies_from_file`).  Result:
    `none` = a `KeyError` escaped (`link['href']` with no href);
    `some none` = the row is silently skipped;
    `some (some r)` = the row yields Basic Record `r`. -/
def processDeputyRow (row : List DCell) : Option (Option DeputyRec) :=
  if h : 4 ≤ row.length then
    match (row.get ⟨1, by omega⟩).anchor with
    | none => some none
    | some link =>
      match link.href with
      | none => none
      | some href =>
        match findIdm href with
        | none => some none
        | some did =>
          some (some { name := pyStrip link.text
                     , url := deputyProfileUrl did
                     , id := did
                     , group := pyStrip ((row.get ⟨3, by omega⟩).text) })
  else some none

/-- The row loop of `extract_deputies_from_file`, with the enclosing
    `try`: an exception anywhere makes the whole call return `none`
    (which the `except` clause turns into `[]`). -/
def extractDeputiesLoop : List (List DCell) → Option (List DeputyRec)
  | [] => some []
  | row :: rest =>
    match processDeputyRow row with
    | none => none
    | some none => extractDeputiesLoop rest
    | some (some r) => (extractDeputiesLoop rest).map (fun l => r :: l)

/-- `extract_deputies_from_file` applied to the data rows of the
    located deputies table (the `[1:]` slice past the header row);
    the `except` clause maps any raised exception to `[]`. -/
def extract_deputies_from_file (rows : List (List DCell)) : List DeputyRec :=
  (extractDeputiesLoop rows).getD []

/-! ## Upper-chamber (senators) listing parse -/

/-- Python `s.split('\n')`. -/
def splitOnNl : List Char → List (List Char)
  | [] => [[]]
  | c :: rest =>
    match splitOnNl rest with
    | [] => [[]]
    | l :: ls => if c = '\n' then [] :: l :: ls else (c :: l) :: ls

/-- `[line.strip() for line in card.get_text().split('\n') if line.strip()]`. -/
def senatorTextLines (raw : List Char) : List (List Char) :=
  ((splitOnNl raw).map pyStrip).filter (fun l => !l.isEmpty)

/-- The three fixed labels scanned for in each card's text lines. -/
def labelBirth : List Char := "Data nasterii:".toList

/-- Label of the constituency line (`ţ` is U+0163, `ă` is U+0103,
    exactly as in the source). -/
def labelCirc : List Char := "Circumscripţia electorală".toList

/-- Label of the parliamentary-group line. -/
def labelGroup : List Char := "Grupul parlamentar".toList

/-- The `if/elif` label scan over the card's text lines
    (`senators-scraper.py` lines 76-82): later matching lines
    overwrite earlier ones; the `elif` chain gives the birth label
    priority over the constituency label, which has priority over the
    group label. -/
def scanStep (acc : List Char × List Char × List Char) (line : List Char) :
    List Char × List Char × List Char :=
  if containsSub labelBirth line then
    (pyStrip (removeAll labelBirth line), acc.2.1, acc.2.2)
  else if containsSub labelCirc line then
    (acc.1, pyStrip line, acc.2.2)
  else if containsSub labelGroup line then
    (acc.1, acc.2.1, pyStrip line)
  else acc

/-- The full scan, starting from three empty fields. -/
def scanSenatorLines (lines : List (List Char)) : List Char × List Char × List Char :=
  lines.foldl scanStep ([], [], [])

/-- A senator card (`div.new-card-without-pics`): its first anchor
    (`card.find('a')`) and the flattened text `card.get_text()`. -/
structure SCard where
  anchor : Option Anchor
  rawText : List Char
deriving DecidableEq

/-- The senator Basic Record built by
    `SenatorsScraper.extract_senators_from_file`. -/
structure SenatorRec where
  id : List Char
  name : List Char
  birth_date : List Char
  constituency : List Char
  group : List Char
  url : List Char
deriving DecidableEq

/-- Processing of one senator card (the `try` body of the card loop).
    `none` = the card is skipped: either `card.find('a')` returned
    nothing (`continue`), or `re.search(...)` returned `None` and
    `.group(1)` raised `AttributeError`, caught by the per-card
    `except ... continue`. -/
def processCard (card : SCard) : Option SenatorRec :=
  match card.anchor with
  | none => none
  | some link =>
    match findParlamentarID (link.href.getD []) with
    | none => none
    | some sid =>
      let fields := scanSenatorLines (senatorTextLines card.rawText)
      some { id := sid
           , name := fixRomanian (pyStrip link.text)
           , birth_date := fields.1
           , constituency := fixRomanian fields.2.1
           , group := fixRomanian fields.2.2
           , url := senatorProfileUrl sid }

/-- `extract_senators_from_file`: process every card in document
    order, skipping the failing ones. -/
def extract_senators_from_file (cards : List SCard) : List SenatorRec :=
  cards.filterMap processCard

/-! ## Lower-chamber detail parse (`parse_deputy_committees`) -/

/-- An immediate child of the committees paragraph: an anchor tag, a
    `NavigableString`, or any other tag (skipped by the
    `elif isinstance(element, str)` chain). -/
inductive PNode where
  | anchor (text : List Char) (href : Option (List Char))
  | textNode (s : List Char)
  | other
deriving DecidableEq

/-- One committee association of a deputy (`role` is only present
    when some trailing text set it). -/
structure DCommittee where
  name : List Char
  url : List Char
  role : Option (List Char)
deriving DecidableEq

/-- `committees[-1]['role'] = text`: update the role of the last
    association. -/
def setLastRole (t : List Char) : List DCommittee → List DCommittee
  | [] => []
  | [c] => [{ c with role := some t }]
  | c :: d :: rest => c :: setLastRole t (d :: rest)

/-- One step of the walk over `p_tag.contents`
    (`parliament-scraper-selenium.py` lines 216-226).  `join` models
    `urljoin(self.base_url, ·)`.  `none` = `element['href']` raised on
    an href-less anchor. -/
def stepDeputyCommittee (join : List Char → List Char) :
    Option (List DCommittee) → PNode → Option (List DCommittee)
  | none, _ => none
  | some _, PNode.anchor _ none => none
  | some acc, PNode.anchor t (some href) =>
      some (acc ++ [{ name := pyStrip t, url := join href, role := none }])
  | some acc, PNode.textNode s =>
      some (if !(stripRole s).isEmpty && !acc.isEmpty then setLastRole (stripRole s) acc else acc)
  | some acc, PNode.other => some acc

/-- `parse_deputy_committees` restricted to its committee walk: the
    fold over the paragraph's immediate children; the enclosing
    `try` maps a raised exception to `[]`. -/
def parse_deputy_committees (join : List Char → List Char)
    (contents : List PNode) : List DCommittee :=
  (contents.foldl (stepDeputyCommittee join) (some [])).getD []

/-! ## Upper-chamber detail parse (`parse_senator_committees`) -/

/-- A node of the `find_next` stream of a senator detail page: an
    anchor, an `h5` heading with its text, or anything else. -/
inductive SenNode where
  | anchor (text : List Char) (href : Option (List Char))
  | h5 (text : List Char)
  | other
deriving DecidableEq

/-- One committee association of a senator (no role field). -/
structure SCommittee where
  name : List Char
  url : List Char
deriving DecidableEq

/-- The committees heading the code searches for:
    `soup.find('h5', string='Comisii permanente:')`. -/
def comisiiLabel : List Char := "Comisii permanente:".toList

/-- Locate the first `h5` whose text is exactly the label and return
    the `find_next` stream after it; `none` when there is none. -/
def findCommitteesTail : List SenNode → Option (List SenNode)
  | [] => none
  | SenNode.h5 t :: rest =>
    if t = comisiiLabel then some rest else findCommitteesTail rest
  | SenNode.anchor _ _ :: rest => findCommitteesTail rest
  | SenNode.other :: rest => findCommitteesTail rest

/-- The `while current and current.name != 'h5'` walk: collect every
    anchor until the next `h5` (exclusive) or the end of the
    document.  `none` = `current['href']` raised on an href-less
    anchor. -/
def collectCommittees (join : List Char → List Char) :
    List SenNode → Option (List SCommittee)
  | [] => some []
  | SenNode.h5 _ :: _ => some []
  | SenNode.anchor _ none :: _ => none
  | SenNode.anchor t (some href) :: rest =>
      (collectCommittees join rest).map
        (fun l => { name := fixRomanian (pyStrip t), url := join href } :: l)
  | SenNode.other :: rest => collectCommittees join rest

/-- `parse_senator_committees` over the document's `find_next`
    stream; the enclosing `try` maps a raised exception to `[]`. -/
def parse_senator_committees (join : List Char → List Char)
    (doc : List SenNode) : List SCommittee :=
  match findCommitteesTail doc with
  | none => []
  | some tail => (collectCommittees join tail).getD []

/-! ## Flattener / emitters (`process_all`) -/

/-- The rows `ParliamentScraper.process_all` writes for one deputy
    with a parsed committee list (lines 257-276): note the
    six-cell placeholder row that omits the group and the role
    column. -/
def deputyRows (d : DeputyRec) (cs : List DCommittee) : List (List (List Char)) :=
  if cs.isEmpty then
    [[d.name, d.url, d.id, [], [], []]]
  else
    cs.map (fun c => [d.name, d.url, d.id, d.group, c.name, c.url, c.role.getD []])

/-- The deputy CSV loop over all records: a record with no
    `local_file` entry (`detail = none`) is skipped by `continue`;
    otherwise its parsed committee list is flattened. -/
def emitDeputies : List (DeputyRec × Option (List DCommittee)) → List (List (List Char))
  | [] => []
  | (_, none) :: rest => emitDeputies rest
  | (d, some cs) :: rest => deputyRows d cs ++ emitDeputies rest

/-- The deputy CSV header row. -/
def deputiesHeader : List (List Char) :=
  ["Deputy Name".toList, "Deputy URL".toList, "Deputy ID".toList,
   "Parliamentary Group".toList, "Committee Name".toList, "Committee URL".toList,
   "Role".toList]

/-- `ParliamentScraper.process_all` end to end over the listing's
    data rows.  `detail d` is the detail-resolution outcome for
    record `d`: `none` when no local file was recorded, `some cs`
    the parse result of the local file.  The result is `none` when
    the run returns early at `if not deputies` — before the output
    CSV is ever opened — and otherwise the full cell matrix of the
    written file, header first. -/
def processAllDeputies (rows : List (List DCell))
    (detail : DeputyRec → Option (List DCommittee)) :
    Option (List (List (List Char))) :=
  let ds := extract_deputies_from_file rows
  if ds.isEmpty then none
  else some (deputiesHeader :: emitDeputies (ds.map (fun d => (d, detail d))))

/-- The rows `SenatorsScraper.process_all` writes for one senator
    (lines 188-210): the placeholder keeps every Basic Record field
    and pads the two committee columns with empty strings. -/
def senatorRows (s : SenatorRec) (cs : List SCommittee) : List (List (List Char)) :=
  if cs.isEmpty then
    [[s.name, s.url, s.id, s.birth_date, s.constituency, s.group, [], []]]
  else
    cs.map (fun c => [s.name, s.url, s.id, s.birth_date, s.constituency, s.group, c.name, c.url])

/-- The senator CSV loop over all records: a record with no
    `local_file` entry is skipped by `continue`. -/
def emitSenators : List (SenatorRec × Option (List SCommittee)) → List (List (List Char))
  | [] => []
  | (_, none) :: rest => emitSenators rest
  | (s, some cs) :: rest => senatorRows s cs ++ emitSenators rest

/-- The senator CSV header row. -/
def senatorsHeader : List (List Char) :=
  ["Senator Name".toList, "Senator URL".toList, "Senator ID".toList,
   "Birth Date".toList, "Constituency".toList, "Parliamentary Group".toList,
   "Committee Name".toList, "Committee URL".toList]

/-- `SenatorsScraper.process_all` end to end: `none` when the run
    returns early at `if not senators` — before the output CSV is
    ever opened — and otherwise the full cell matrix of the written
    file, header first. -/
def processAllSenators (cards : List SCard)
    (detail : SenatorRec → Option (List SCommittee)) :
    Option (List (List (List Char))) :=
  let ss := extract_senators_from_file cards
  if ss.isEmpty then none
  else some (senatorsHeader :: emitSenators (ss.map (fun s => (s, detail s))))

/-! ## Decidable shape predicates over `find_next` streams -/

/-- `true` iff the stream contains no `h5` node at all. -/
def noH5 (l : List SenNode) : Bool :=
  l.all (fun n => match n with | SenNode.h5 _ => false | _ => true)

/-- `true` iff every anchor in the stream carries an `href`
    attribute. -/
def anchorsHaveHref (l : List SenNode) : Bool :=
  l.all (fun n => match n with | SenNode.anchor _ none => false | _ => true)

/-- The association built from one anchor node of the senator scan,
    `none` for non-anchors. -/
def anchorAssociation (join : List Char → List Char) : SenNode → Option SCommittee
  | SenNode.anchor t (some h) => some { name := fixRomanian (pyStrip t), url := join h }
  | _ => none

/-! ## Concrete instances used by counterexamples and witnesses -/

/-- A concrete deputy Basic Record. -/
def cxDeputy : DeputyRec :=
  { name := "Ion Pop".toList
  , url := deputyProfileUrl ('1' :: '2' :: '3' :: [])
  , id := ('1' :: '2' :: '3' :: [])
  , group := "PSD".toList }

/-- A concrete senator Basic Record. -/
def cxSenator : SenatorRec :=
  { id := "p123".toList
  , name := "Ana Ionescu".toList
  , birth_date := "01.01.1970".toList
  , constituency := "Cluj".toList
  , group := "PSD".toList
  , url := senatorProfileUrl "p123".toList }

/-- A concrete deputy committee association. -/
def cxDCommittee : DCommittee :=
  { name := "Comisia X".toList, url := "/com/x".toList, role := some ("Membru".toList) }

/-- A concrete senator committee association. -/
def cxSCommittee : SCommittee :=
  { name := "Comisia Y".toList, url := "/com/y".toList }

/-- A well-formed deputies-table data row yielding `cxDeputy`. -/
def cxGoodRow : List DCell :=
  [{ anchor := none, text := [] },
   { anchor := some { text := "Ion Pop".toList, href := some ("structura2015.mp?idm=123".toList) }
   , text := [] },
   { anchor := none, text := "Cluj".toList },
   { anchor := none, text := "PSD".toList }]

/-- A malformed deputies-table row: its second cell holds an anchor
    with no `href` attribute, so `link['href']` raises `KeyError`. -/
def cxBadRow : List DCell :=
  [{ anchor := none, text := [] },
   { anchor := some { text := "X".toList, href := none }, text := [] },
   { anchor := none, text := [] },
   { anchor := none, text := [] }]

/-- A non-qualifying senator card (no anchor inside). -/
def cxBadCard : SCard := { anchor := none, rawText := [] }

/-- A constituency text line of a senator card. -/
def cxCircLine : List Char := "Circumscripţia electorală nr.5 IASI".toList

/-- A birth-date text line of a senator card. -/
def cxBirthLine : List Char := "Data nasterii: 01.01.1970".toList

/-- A concrete senator detail `find_next` stream: an `h5` with the
    committees label, then anchors with no further `h5`. -/
def cxSenDoc : List SenNode :=
  [SenNode.other, SenNode.h5 comisiiLabel,
   SenNode.anchor ("Comisia Y".toList) (some ("/com/y".toList)),
   SenNode.other,
   SenNode.anchor ("Alt link".toList) (some ("/alt".toList))]

/-- The stream after the committees heading of `cxSenDoc`. -/
def cxSenTail : List SenNode :=
  [SenNode.anchor ("Comisia Y".toList) (some ("/com/y".toList)),
   SenNode.other,
   SenNode.anchor ("Alt link".toList) (some ("/alt".toList))]

/-! ## Helper lemmas -/

lemma fixRomanian_eq_map (s : List Char) : fixRomanian s = s.map fixCharPt := by
  simp only [fixRomanian, replaceChar, List.map_map]
  apply List.map_congr_left
  intro a _
  rfl

lemma fixCharPt_idem (c : Char) : fixCharPt (fixCharPt c) = fixCharPt c := by
  by_cases h1 : c = 'º'
  · subst h1; decide
  by_cases h2 : c = 'þ'
  · subst h2; decide
  by_cases h3 : c = 'Þ'
  · subst h3; decide
  by_cases h4 : c = 'ª'
  · subst h4; decide
  · simp [fixCharPt, h1, h2, h3, h4]

lemma fixRomanian_idem (s : List Char) :
    fixRomanian (fixRomanian s) = fixRomanian s := by
  rw [fixRomanian_eq_map (fixRomanian s), fixRomanian_eq_map s, List.map_map]
  apply List.map_congr_left
  intro c hc
  simp only [Function.comp]
  exact fixCharPt_idem c

lemma searchLitCap_cons_of_ne (p : Char) (pt : List Char) (cap : Char → Bool)
    (c : Char) (rest : List Char) (hc : c ≠ p) :
    searchLitCap (p :: pt) cap (c :: rest) = searchLitCap (p :: pt) cap rest := by
  have hpre : (p :: pt).isPrefixOf (c :: rest) = false := by
    simp [List.isPrefixOf]
    intro h
    exact absurd h.symm hc
  conv_lhs => rw [searchLitCap]
  rw [hpre]
  simp

lemma searchLitCap_append_skip (p : Char) (pt : List Char) (cap : Char → Bool)
    (pre s : List Char) (hpre : ∀ c ∈ pre, c ≠ p) :
    searchLitCap (p :: pt) cap (pre ++ s) = searchLitCap (p :: pt) cap s := by
  induction pre with
  | nil => rfl
  | cons c t ih =>
    have hc : c ≠ p := hpre c (List.mem_cons_self c t)
    rw [List.cons_append, searchLitCap_cons_of_ne p pt cap c (t ++ s) hc]
    exact ih (fun d hd => hpre d (List.mem_cons_of_mem c hd))

lemma searchLitCap_at_match (pat : List Char) (cap : Char → Bool)
    (id : List Char) (hpat : pat ≠ []) (hid : id ≠ [])
    (hcap : ∀ c ∈ id, cap c = true) :
    searchLitCap pat cap (pat ++ id) = some id := by
  have htw : id.takeWhile cap = id := List.takeWhile_eq_self_iff.mpr hcap
  cases pat with
  | nil => exact absurd rfl hpat
  | cons p pt =>
    have hpre : (p :: pt).isPrefixOf ((p :: pt) ++ id) = true := by
      simp [ List.isPrefixOf_iff_prefix]
    have hdrop : (((p :: pt) ++ id).drop (p :: pt).length) = id := by
      simp
    conv_lhs => rw [List.cons_append, searchLitCap, ← List.cons_append]
    rw [hpre, hdrop, htw]
    simp [List.isEmpty_iff, hid]

lemma extractDeputiesLoop_skip (row : List DCell) (hrow : processDeputyRow row = some none) :
    ∀ xs ys, extractDeputiesLoop (xs ++ row :: ys) = extractDeputiesLoop (xs ++ ys) := by
  intro xs
  induction xs with
  | nil =>
    intro ys
    simp only [List.nil_append]
    rw [extractDeputiesLoop, hrow]
  | cons x t ih =>
    intro ys
    simp only [List.cons_append]
    rw [extractDeputiesLoop, extractDeputiesLoop]
    cases hx : processDeputyRow x with
    | none => rfl
    | some o =>
      cases o with
      | none => exact ih ys
      | some r => rw [ih ys]

lemma extractDeputiesLoop_raise (row : List DCell) (hrow : processDeputyRow row = none) :
    ∀ xs ys, extractDeputiesLoop (xs ++ row :: ys) = none := by
  intro xs
  induction xs with
  | nil =>
    intro ys
    simp only [List.nil_append]
    rw [extractDeputiesLoop, hrow]
  | cons x t ih =>
    intro ys
    simp only [List.cons_append]
    rw [extractDeputiesLoop]
    cases hx : processDeputyRow x with
    | none => rfl
    | some o =>
      cases o with
      | none => exact ih ys
      | some r => rw [ih ys]; rfl

lemma collectCommittees_filterMap (join : List Char → List Char) :
    ∀ tail : List SenNode, noH5 tail = true → anchorsHaveHref tail = true →
      collectCommittees join tail = some (tail.filterMap (anchorAssociation join)) := by
  intro tail
  induction tail with
  | nil => intro _ _; rfl
  | cons n t ih =>
    intro h5 href
    rw [noH5, List.all_cons, Bool.and_eq_true] at h5
    rw [anchorsHaveHref, List.all_cons, Bool.and_eq_true] at href
    have ht := ih h5.2 href.2
    cases n with
    | h5 s => simp at h5
    | other =>
      rw [collectCommittees, ht]
      simp [anchorAssociation]
    | anchor s o =>
      cases o with
      | none => simp at href
      | some u =>
        rw [collectCommittees, ht]
        simp [anchorAssociation]

lemma setLastRole_append (t : List Char) (c : DCommittee) :
    ∀ cs : List DCommittee, setLastRole t (cs ++ [c]) = cs ++ [{ c with role := some t }] := by
  intro cs
  induction cs with
  | nil => rfl
  | cons x xs ih =>
    cases xs with
    | nil => simp [setLastRole]
    | cons y ys =>
      simp only [List.cons_append] at ih ⊢
      rw [setLastRole, ih]

lemma scanFoldl_inv (lines : List (List Char)) :
    ∀ acc : List Char × List Char × List Char,
      ((∀ m ∈ lines, containsSub labelBirth m = false) →
        (lines.foldl scanStep acc).1 = acc.1) ∧
      ((∀ m ∈ lines, containsSub labelCirc m = false) →
        (lines.foldl scanStep acc).2.1 = acc.2.1) ∧
      ((∀ m ∈ lines, containsSub labelGroup m = false) →
        (lines.foldl scanStep acc).2.2 = acc.2.2) := by
  induction lines with
  | nil => exact fun acc => ⟨fun _ => rfl, fun _ => rfl, fun _ => rfl⟩
  | cons m t ih =>
    intro acc
    refine ⟨?_, ?_, ?_⟩ <;> intro hm <;>
      have h0 := hm m (List.mem_cons_self m t) <;>
      have ht := fun x hx => hm x (List.mem_cons_of_mem m hx) <;>
      rw [List.foldl_cons]
    · rw [(ih _).1 ht, scanStep, if_neg (by simp [h0])]
      split_ifs <;> rfl
    · rw [(ih _).2.1 ht, scanStep]
      split_ifs with hb hc hg
      · rfl
      · rw [h0] at hc; exact absurd hc Bool.false_ne_true
      · rfl
      · rfl
    · rw [(ih _).2.2 ht, scanStep]
      split_ifs with hb hc hg
      · rfl
      · rfl
      · rw [h0] at hg; exact absurd hg Bool.false_ne_true
      · rfl

/-! ## Claim theorems -/

/-- C8: the Character Normalizer `fix_romanian_chars` is idempotent —
    `normalize(normalize(x)) = normalize(x)` for every input, a
    non-string input is returned unchanged, and the empty string is
    returned unchanged (the function is pure by construction). -/
theorem C8_normalizer_idempotent (v : PyVal) :
    fix_romanian_chars (fix_romanian_chars v) = fix_romanian_chars v ∧
    fix_romanian_chars PyVal.nonStr = PyVal.nonStr ∧
    fix_romanian_chars (PyVal.str []) = PyVal.str [] := by
  refine ⟨?_, rfl, rfl⟩
  cases v with
  | nonStr => rfl
  | str s => simp [fix_romanian_chars, fixRomanian_idem]

/-- C1 counterexample: a deputy record whose detail resolution never
    completed (`detail = none`, i.e. no `local_file` key) produces NO
    output row at all — not the single placeholder row the claim
    asserts. -/
theorem C1_counterexample :
    emitDeputies [(cxDeputy, none)] = [] ∧
    emitDeputies [(cxDeputy, none)] ≠
      [[cxDeputy.name, cxDeputy.url, cxDeputy.id, [], [], []]] ∧
    emitSenators [(cxSenator, none)] = [] := by
  refine ⟨rfl, ?_, rfl⟩
  simp [emitDeputies]

/-- C1 (amended): a Basic Record with no recorded local detail file is
    skipped entirely by the emitter (`continue`): it contributes no
    output row, in either chamber; the placeholder row exists only for
    records whose detail file was recorded but whose association list
    is empty. -/
theorem C1_no_local_file_skipped (d : DeputyRec) (s : SenatorRec)
    (restD : List (DeputyRec × Option (List DCommittee)))
    (restS : List (SenatorRec × Option (List SCommittee))) :
    emitDeputies ((d, none) :: restD) = emitDeputies restD ∧
    emitSenators ((s, none) :: restS) = emitSenators restS :=
  ⟨rfl, rfl⟩

/-- C2 counterexample: for a deputy with a resolved detail page and an
    empty committee list, the single emitted row does NOT carry all
    Basic Record fields — the parliamentary group (`"PSD"`) is
    replaced by an empty string and the row has six cells instead of
    the header's seven. -/
theorem C2_counterexample :
    emitDeputies [(cxDeputy, some [])] ≠
      [[cxDeputy.name, cxDeputy.url, cxDeputy.id, cxDeputy.group, [], [], []]] ∧
    (∀ r ∈ emitDeputies [(cxDeputy, some [])], cxDeputy.group ∉ r ∧ r.length = 6) := by
  constructor
  · decide
  · decide

/-- C2 (amended): with a resolved detail page and an empty association
    list, the upper-chamber emitter writes exactly one row carrying
    every Basic Record field unchanged plus empty committee fields;
    the lower-chamber emitter also writes exactly one row, but it
    carries only name, url and id, writes an empty string in place of
    the parliamentary group, and has six cells instead of seven. -/
theorem C2_empty_assoc_row (d : DeputyRec) (s : SenatorRec)
    (restD : List (DeputyRec × Option (List DCommittee)))
    (restS : List (SenatorRec × Option (List SCommittee))) :
    emitSenators ((s, some []) :: restS) =
      [s.name, s.url, s.id, s.birth_date, s.constituency, s.group, [], []] :: emitSenators restS ∧
    emitDeputies ((d, some []) :: restD) =
      [d.name, d.url, d.id, [], [], []] :: emitDeputies restD :=
  ⟨rfl, rfl⟩

/-- C6: for a record with `k > 0` committee associations the emitter
    writes exactly `k` rows, one per association in order, each
    carrying the full Basic Record fields (identical across the rows:
    the first 4 resp. 6 cells are constant) plus that association's
    committee fields. -/
theorem C6_k_assoc_rows (d : DeputyRec) (cs : List DCommittee)
    (s : SenatorRec) (ss : List SCommittee)
    (hcs : cs ≠ []) (hss : ss ≠ []) :
    deputyRows d cs =
      cs.map (fun c => [d.name, d.url, d.id, d.group, c.name, c.url, c.role.getD []]) ∧
    (deputyRows d cs).length = cs.length ∧
    (∀ r ∈ deputyRows d cs, r.take 4 = [d.name, d.url, d.id, d.group]) ∧
    senatorRows s ss =
      ss.map (fun c => [s.name, s.url, s.id, s.birth_date, s.constituency, s.group, c.name, c.url]) ∧
    (senatorRows s ss).length = ss.length ∧
    (∀ r ∈ senatorRows s ss, r.take 6 = [s.name, s.url, s.id, s.birth_date, s.constituency, s.group]) := by
  have hd : deputyRows d cs =
      cs.map (fun c => [d.name, d.url, d.id, d.group, c.name, c.url, c.role.getD []]) := by
    rw [deputyRows, if_neg]
    simp [List.isEmpty_iff, hcs]
  have hs : senatorRows s ss =
      ss.map (fun c => [s.name, s.url, s.id, s.birth_date, s.constituency, s.group, c.name, c.url]) := by
    rw [senatorRows, if_neg]
    simp [List.isEmpty_iff, hss]
  refine ⟨hd, by rw [hd]; simp, ?_, hs, by rw [hs]; simp, ?_⟩
  · intro r hr
    rw [hd] at hr
    rcases List.mem_map.mp hr with ⟨c, _, rfl⟩
    rfl
  · intro r hr
    rw [hs] at hr
    rcases List.mem_map.mp hr with ⟨c, _, rfl⟩
    rfl

/-- C6 witness at a concrete record with one association. -/
theorem C6_witness :
    deputyRows cxDeputy [cxDCommittee] =
      [[cxDeputy.name, cxDeputy.url, cxDeputy.id, cxDeputy.group,
        cxDCommittee.name, cxDCommittee.url, cxDCommittee.role.getD []]] ∧
    senatorRows cxSenator [cxSCommittee] =
      [[cxSenator.name, cxSenator.url, cxSenator.id, cxSenator.birth_date,
        cxSenator.constituency, cxSenator.group, cxSCommittee.name, cxSCommittee.url]] := by
  have h := C6_k_assoc_rows cxDeputy [cxDCommittee] cxSenator [cxSCommittee]
    (by decide) (by decide)
  exact ⟨h.1, h.2.2.2.1⟩

/-- C4 counterexample: with a listing holding zero qualifying
    rows/cards, `process_all` returns at `if not deputies/senators`
    before the output CSV is ever opened — no header-only output file
    is produced, contrary to the claim. -/
theorem C4_counterexample :
    processAllSenators [cxBadCard] (fun _ => none) = none ∧
    processAllSenators [cxBadCard] (fun _ => none) ≠ some [senatorsHeader] ∧
    processAllDeputies [[]] (fun _ => none) = none ∧
    processAllDeputies [[]] (fun _ => none) ≠ some [deputiesHeader] := by
  refine ⟨rfl, ?_, rfl, ?_⟩ <;> simp [processAllSenators, processAllDeputies,
    extract_senators_from_file, extractDeputiesLoop, extract_deputies_from_file,
    processCard, processDeputyRow, cxBadCard]

/-- C4 (amended): a listing that parses to zero Basic Records makes
    the run terminate early: the committees phase receives nothing
    and no output file is written at all (not even a header-only
    one). -/
theorem C4_empty_listing_early_return (cards : List SCard) (rows : List (List DCell))
    (detS : SenatorRec → Option (List SCommittee))
    (detD : DeputyRec → Option (List DCommittee))
    (hqs : ∀ c ∈ cards, processCard c = none)
    (hqd : ∀ r ∈ rows, processDeputyRow r = some none) :
    extract_senators_from_file cards = [] ∧
    extract_deputies_from_file rows = [] ∧
    processAllSenators cards detS = none ∧
    processAllDeputies rows detD = none := by
  have hs : extract_senators_from_file cards = [] := by
    rw [extract_senators_from_file]
    exact List.filterMap_eq_nil_iff.mpr hqs
  have hloop : ∀ rs : List (List DCell), (∀ r ∈ rs, processDeputyRow r = some none) →
      extractDeputiesLoop rs = some [] := by
    intro rs
    induction rs with
    | nil => intro _; rfl
    | cons r t ih =>
      intro hall
      rw [extractDeputiesLoop, hall r (List.mem_cons_self r t)]
      exact ih (fun x hx => hall x (List.mem_cons_of_mem r hx))
  have hd : extract_deputies_from_file rows = [] := by
    rw [extract_deputies_from_file, hloop rows hqd]
    rfl
  refine ⟨hs, hd, ?_, ?_⟩
  · rw [processAllSenators]
    simp [hs]
  · rw [processAllDeputies]
    simp [hd]

/-- C4 witness at a concrete non-qualifying listing. -/
theorem C4_witness :
    extract_senators_from_file [cxBadCard] = [] ∧
    processAllSenators [cxBadCard] (fun _ => some []) = none ∧
    processAllDeputies [[]] (fun _ => some []) = none := by
  have h := C4_empty_listing_early_return [cxBadCard] [[]] (fun _ => some [])
    (fun _ => some []) (by decide) (by decide)
  exact ⟨h.1, h.2.2.1, h.2.2.2⟩

/-- C9: for a lower-chamber id (non-empty digit string) and an
    upper-chamber id (non-empty `&`-free string), building the
    profile URL from the id via the source's fixed template and
    re-extracting the id from that URL with the source's own pattern
    (`idm=(\d+)` resp. `ParlamentarID=([^&]+)`) yields the original
    id. -/
theorem C9_profile_url_roundtrip (id : List Char) (hne : id ≠ []) :
    ((∀ c ∈ id, c.isDigit = true) → findIdm (deputyProfileUrl id) = some id) ∧
    ((∀ c ∈ id, c ≠ '&') → findParlamentarID (senatorProfileUrl id) = some id) := by
  constructor
  · intro hdig
    rw [findIdm, deputyProfileUrl, List.append_assoc,
      searchLitCap_append_skip 'i' ('d' :: 'm' :: '=' :: []) Char.isDigit deputyUrlStem _
        (by decide)]
    exact searchLitCap_at_match _ _ id (by simp) hne hdig
  · intro hamp
    have hpat : "ParlamentarID=".toList = 'P' :: "arlamentarID=".toList := by decide
    rw [findParlamentarID, senatorProfileUrl, List.append_assoc, hpat,
      searchLitCap_append_skip 'P' ("arlamentarID=".toList) _ senatorUrlStem _ (by decide)]
    exact searchLitCap_at_match _ _ id (by simp) hne
      (fun c hc => by simp only [bne_iff_ne, ne_eq]; exact hamp c hc)

/-- C9 witness at the concrete id `123`. -/
theorem C9_witness :
    findIdm (deputyProfileUrl ('1' :: '2' :: '3' :: [])) = some ('1' :: '2' :: '3' :: []) ∧
    findParlamentarID (senatorProfileUrl ('1' :: '2' :: '3' :: [])) =
      some ('1' :: '2' :: '3' :: []) := by
  have h := C9_profile_url_roundtrip ('1' :: '2' :: '3' :: []) (by decide)
  exact ⟨h.1 (by decide), h.2 (by decide)⟩

/-- C5 counterexample: in the lower-chamber listing parse, one row
    whose anchor lacks an `href` attribute raises a `KeyError` that
    is caught by the function-level `except`, which returns `[]`: the
    malformed row does not merely get skipped — it empties the whole
    record set, losing the valid row before it. -/
theorem C5_counterexample :
    extract_deputies_from_file [cxGoodRow] = [cxDeputy] ∧
    extract_deputies_from_file [cxGoodRow, cxBadRow] = [] := by
  constructor <;> decide

/-- C5 (amended): per-item isolation holds for the upper chamber (any
    failing card is skipped and the rest processed) and for
    lower-chamber rows that fail the structural checks (fewer than
    four cells, no anchor, no extractable id): those are skipped
    individually.  But a lower-chamber row whose anchor has no `href`
    attribute raises, aborting the parse and returning an empty
    record set. -/
theorem C5_per_item_isolation (xs ys : List SCard) (bad : SCard)
    (rxs rys : List (List DCell)) (row : List DCell)
    (hbad : processCard bad = none) :
    (extract_senators_from_file (xs ++ bad :: ys) =
      extract_senators_from_file xs ++ extract_senators_from_file ys) ∧
    (processDeputyRow row = some none →
      extract_deputies_from_file (rxs ++ row :: rys) =
        extract_deputies_from_file (rxs ++ rys)) ∧
    (processDeputyRow row = none →
      extract_deputies_from_file (rxs ++ row :: rys) = []) := by
  refine ⟨?_, ?_, ?_⟩
  · simp [extract_senators_from_file, List.filterMap_append, List.filterMap_cons, hbad]
  · intro hrow
    rw [extract_deputies_from_file, extract_deputies_from_file,
      extractDeputiesLoop_skip row hrow rxs rys]
  · intro hrow
    rw [extract_deputies_from_file, extractDeputiesLoop_raise row hrow rxs rys]
    rfl

/-- C5 witness: a failing senator card between two empty stretches,
    and the raising deputy row after a good row. -/
theorem C5_witness :
    (extract_senators_from_file ([] ++ cxBadCard :: []) =
      extract_senators_from_file [] ++ extract_senators_from_file []) ∧
    extract_deputies_from_file ([cxGoodRow] ++ cxBadRow :: []) = [] := by
  have h := C5_per_item_isolation [] [] cxBadCard [cxGoodRow] [] cxBadRow (by decide)
  exact ⟨h.1, h.2.2 (by decide)⟩

/-- C3 counterexample: a card line carrying the constituency label is
    stored WHOLE — label included — as the constituency field, not as
    the text after the label: the stored value still contains the
    label and differs from the trimmed after-label text `nr.5 IASI`. -/
theorem C3_counterexample :
    (scanSenatorLines [cxCircLine]).2.1 = cxCircLine ∧
    containsSub labelCirc ((scanSenatorLines [cxCircLine]).2.1) = true ∧
    (scanSenatorLines [cxCircLine]).2.1 ≠ "nr.5 IASI".toList := by
  refine ⟨?_, ?_, ?_⟩ <;> decide

/-- C3 (amended): the card scan matches each of the three labels by
    substring containment with the `elif` priority birth > constituency
    > group, and the last matching line wins; a line matching the
    birth label stores the line with all label occurrences removed and
    trimmed, while a line matching the constituency or group label
    stores the entire trimmed line, label included; a label matched by
    no line leaves its field empty. -/
theorem C3_label_scan (xs : List (List Char)) (l : List Char) :
    (containsSub labelBirth l = true →
      (scanSenatorLines (xs ++ [l])).1 = pyStrip (removeAll labelBirth l)) ∧
    (containsSub labelBirth l = false → containsSub labelCirc l = true →
      (scanSenatorLines (xs ++ [l])).2.1 = pyStrip l) ∧
    (containsSub labelBirth l = false → containsSub labelCirc l = false →
      containsSub labelGroup l = true →
      (scanSenatorLines (xs ++ [l])).2.2 = pyStrip l) ∧
    (containsSub labelBirth l = false → containsSub labelCirc l = false →
      containsSub labelGroup l = false →
      scanSenatorLines (xs ++ [l]) = scanSenatorLines xs) ∧
    ((∀ m ∈ xs, containsSub labelBirth m = false) → (scanSenatorLines xs).1 = []) ∧
    ((∀ m ∈ xs, containsSub labelCirc m = false) → (scanSenatorLines xs).2.1 = []) ∧
    ((∀ m ∈ xs, containsSub labelGroup m = false) → (scanSenatorLines xs).2.2 = []) := by
  have happ : scanSenatorLines (xs ++ [l]) = scanStep (scanSenatorLines xs) l := by
    rw [scanSenatorLines, scanSenatorLines, List.foldl_append, List.foldl_cons, List.foldl_nil]
  have hinv := scanFoldl_inv xs ([], [], [])
  refine ⟨?_, ?_, ?_, ?_, hinv.1, hinv.2.1, hinv.2.2⟩
  · intro hb
    rw [happ, scanStep, if_pos (by simp [hb])]
  · intro hb hc
    rw [happ, scanStep, if_neg (by simp [hb]), if_pos (by simp [hc])]
  · intro hb hc hg
    rw [happ, scanStep, if_neg (by simp [hb]), if_neg (by simp [hc]), if_pos (by simp [hg])]
  · intro hb hc hg
    rw [happ, scanStep, if_neg (by simp [hb]), if_neg (by simp [hc]), if_neg (by simp [hg])]

/-- C3 witness: a birth line has its label removed, a constituency
    line is stored whole. -/
theorem C3_witness :
    (scanSenatorLines ([] ++ [cxBirthLine])).1 =
      pyStrip (removeAll labelBirth cxBirthLine) ∧
    (scanSenatorLines ([] ++ [cxCircLine])).2.1 = pyStrip cxCircLine := by
  exact ⟨(C3_label_scan [] cxBirthLine).1 (by decide),
         (C3_label_scan [] cxCircLine).2.1 (by decide) (by decide)⟩

/-- C7: walking the committee paragraph's immediate children in
    document order, an anchor child starts a new association and a
    text-node child — trimmed of surrounding whitespace and dashes —
    becomes the role of the most recently started association when
    one exists, while non-empty text before any anchor is discarded;
    with two anchors and one trailing role text the result is two
    associations, the first roleless, the second carrying the trimmed
    text. -/
theorem C7_role_text_attachment (join : List Char → List Char)
    (t1 hr1 t2 hr2 role txt : List Char) (rest : List PNode)
    (hrole : (stripRole role).isEmpty = false) :
    parse_deputy_committees join
        [PNode.anchor t1 (some hr1), PNode.anchor t2 (some hr2), PNode.textNode role] =
      [{ name := pyStrip t1, url := join hr1, role := none },
       { name := pyStrip t2, url := join hr2, role := some (stripRole role) }] ∧
    parse_deputy_committees join (PNode.textNode txt :: rest) =
      parse_deputy_committees join rest ∧
    (∀ acc : List DCommittee, acc ≠ [] →
      stepDeputyCommittee join (some acc) (PNode.textNode role) =
        some (setLastRole (stripRole role) acc)) ∧
    (∀ (cs : List DCommittee) (c : DCommittee) (r : List Char),
      setLastRole r (cs ++ [c]) = cs ++ [{ c with role := some r }]) := by
  refine ⟨?_, ?_, ?_, fun cs c r => setLastRole_append r c cs⟩
  · rw [parse_deputy_committees]
    simp only [List.foldl_cons, List.foldl_nil, stepDeputyCommittee, List.nil_append]
    rw [hrole]
    simp [setLastRole]
  · have hstep : stepDeputyCommittee join (some []) (PNode.textNode txt) = some [] := by
      simp [stepDeputyCommittee]
    rw [parse_deputy_committees, List.foldl_cons, hstep]
    rfl
  · intro acc hacc
    have hne : acc.isEmpty = false := by simp [List.isEmpty_iff, hacc]
    simp [stepDeputyCommittee, hrole, hne]

/-- C7 witness at concrete markup with two anchors and one trailing
    role text, `join` instantiated with the identity. -/
theorem C7_witness :
    parse_deputy_committees (fun u => u)
        [PNode.anchor ("Comisia X".toList) (some ("/com/x".toList)),
         PNode.anchor ("Comisia Z".toList) (some ("/com/z".toList)),
         PNode.textNode (" - Membru".toList)] =
      [{ name := "Comisia X".toList, url := "/com/x".toList, role := none },
       { name := "Comisia Z".toList, url := "/com/z".toList,
         role := some ("Membru".toList) }] := by
  rw [(C7_role_text_attachment (fun u => u) ("Comisia X".toList) ("/com/x".toList)
    ("Comisia Z".toList) ("/com/z".toList) (" - Membru".toList) [] [] (by decide)).1]
  decide

/-- C10 (implicit): when the committees heading is present but no
    `h5` element occurs after it, the forward `find_next` scan runs
    to the very end of the document and every anchor after the
    heading — however far, in whatever section — becomes a Committee
    Association. -/
theorem C10_scan_runs_to_document_end (join : List Char → List Char)
    (doc tail : List SenNode)
    (hfind : findCommitteesTail doc = some tail)
    (hnoh5 : noH5 tail = true)
    (hhref : anchorsHaveHref tail = true) :
    parse_senator_committees join doc = tail.filterMap (anchorAssociation join) := by
  rw [parse_senator_committees, hfind]
  show (collectCommittees join tail).getD [] = _
  rw [collectCommittees_filterMap join tail hnoh5 hhref]
  rfl

/-- C10 witness: the anchor of an unrelated later section (after the
    committees anchors, with no `h5` in between) is also collected. -/
theorem C10_witness :
    parse_senator_committees (fun u => u) cxSenDoc =
      [{ name := fixRomanian (pyStrip ("Comisia Y".toList)), url := "/com/y".toList },
       { name := fixRomanian (pyStrip ("Alt link".toList)), url := "/alt".toList }] := by
  rw [C10_scan_runs_to_document_end (fun u => u) cxSenDoc cxSenTail (by decide) (by decide)
    (by decide)]
  decide

end OpenDataRomania
